import Mathlib

/-!
Verification of the resilience-and-delivery core of the
`ecommerce-data-pipeline` repository: idempotency store and manager,
circuit breaker, retry executor with backoff, and the SQS consumer's
per-message control flow.

Each definition is a shallow embedding of the corresponding TypeScript
source.  Wall-clock time (`Date.now()`) is passed explicitly as a `Nat`
parameter `now`; asynchronous effectful methods become pure functions
returning their result together with the updated state.
-/

namespace Pipeline

/-! ### Idempotency model (`common/utils/idempotency.util.ts`) -/

/-- `IdempotencyStatus` enum. -/
inductive IdempotencyStatus where
  | NOT_FOUND
  | PROCESSING
  | COMPLETED
  | FAILED
deriving DecidableEq, Repr

/-- `IdempotencyRecord` interface; ISO timestamps are modelled as the
`Nat` clock values they were generated from, and the `result?` /
`error?` payloads as optional strings. -/
structure IdempotencyRecord where
  key : String
  status : IdempotencyStatus
  createdAt : Nat
  updatedAt : Nat
  result : Option String := none
  error : Option String := none
deriving DecidableEq, Repr

/-- One entry of `InMemoryIdempotencyStore`'s backing `Map`. -/
structure StoreEntry where
  record : IdempotencyRecord
  expiresAt : Nat
deriving DecidableEq, Repr

/-- The backing `Map<string, {record, expiresAt}>`, as an association
list with at most one binding per key. -/
abbrev InMemoryStore := List (String × StoreEntry)

/-- `Map.get`: first (unique) binding of the key, if any. -/
def storeFind (s : InMemoryStore) (k : String) : Option StoreEntry :=
  match s with
  | [] => none
  | (k', e) :: rest => if k' = k then some e else storeFind rest k

/-- `Map.delete`. -/
def storeRemove (s : InMemoryStore) (k : String) : InMemoryStore :=
  match s with
  | [] => []
  | (k', e) :: rest => if k' = k then storeRemove rest k else (k', e) :: storeRemove rest k

/-- `Map.set`: full overwrite of the binding for the key. -/
def storeInsert (s : InMemoryStore) (k : String) (e : StoreEntry) : InMemoryStore :=
  (k, e) :: storeRemove s k

/-- `InMemoryIdempotencyStore.get`: absent entries and entries whose
`expiresAt` lies strictly in the past read as `null`; an expired entry
is also deleted from the backing map. -/
def memGet (s : InMemoryStore) (now : Nat) (k : String) :
    Option IdempotencyRecord × InMemoryStore :=
  match storeFind s k with
  | none => (none, s)
  | some e => if now > e.expiresAt then (none, storeRemove s k) else (some e.record, s)

/-- `InMemoryIdempotencyStore.set`: overwrite with expiry `now + ttlMs`. -/
def memSet (s : InMemoryStore) (now : Nat) (k : String) (r : IdempotencyRecord)
    (ttlMs : Nat) : InMemoryStore :=
  storeInsert s k ⟨r, now + ttlMs⟩

/-- `InMemoryIdempotencyStore.delete`. -/
def memDelete (s : InMemoryStore) (k : String) : InMemoryStore :=
  storeRemove s k

/-- `IdempotencyManager` over the in-memory store: the store plus the
configured TTL (default 24h in the source). -/
structure IdempotencyManager where
  store : InMemoryStore
  ttlMs : Nat
deriving DecidableEq, Repr

/-- `IdempotencyManager.checkAndLock`: return the status of an existing
record unchanged, or create a PROCESSING record and report NOT_FOUND. -/
def IdempotencyManager.checkAndLock (m : IdempotencyManager) (now : Nat) (key : String) :
    IdempotencyStatus × IdempotencyManager :=
  match memGet m.store now key with
  | (some existing, s') => (existing.status, { m with store := s' })
  | (none, s') =>
      let record : IdempotencyRecord :=
        { key := key, status := .PROCESSING, createdAt := now, updatedAt := now }
      (.NOT_FOUND, { m with store := memSet s' now key record m.ttlMs })

/-- `IdempotencyManager.markCompleted`. -/
def IdempotencyManager.markCompleted (m : IdempotencyManager) (now : Nat) (key : String)
    (result : Option String) : IdempotencyManager :=
  let record : IdempotencyRecord :=
    { key := key, status := .COMPLETED, createdAt := now, updatedAt := now,
      result := result }
  { m with store := memSet m.store now key record m.ttlMs }

/-- `IdempotencyManager.markFailed`. -/
def IdempotencyManager.markFailed (m : IdempotencyManager) (now : Nat) (key : String)
    (error : String) : IdempotencyManager :=
  let record : IdempotencyRecord :=
    { key := key, status := .FAILED, createdAt := now, updatedAt := now,
      error := some error }
  { m with store := memSet m.store now key record m.ttlMs }

/-- `IdempotencyManager.release`. -/
def IdempotencyManager.release (m : IdempotencyManager) (key : String) :
    IdempotencyManager :=
  { m with store := memDelete m.store key }

/-- `IdempotencyManager.generateKey`. -/
def generateKey (productId eventId : String) : String :=
  "product:" ++ productId ++ ":event:" ++ eventId

/-! ### Circuit breaker (`common/utils/circuit-breaker.util.ts`) -/

/-- `CircuitState` enum. -/
inductive CircuitState where
  | CLOSED
  | OPEN
  | HALF_OPEN
deriving DecidableEq, Repr

/-- `CircuitBreakerConfig`. -/
structure CircuitBreakerConfig where
  failureThreshold : Nat
  successThreshold : Nat
  timeout : Nat
  resetTimeout : Nat
deriving DecidableEq, Repr

/-- Mutable fields of a `CircuitBreaker` instance together with its
(immutable) configuration.  `lastFailureTime` starts out `null`. -/
structure CircuitBreaker where
  state : CircuitState
  failureCount : Nat
  successCount : Nat
  lastFailureTime : Option Nat
  config : CircuitBreakerConfig
deriving DecidableEq, Repr

/-- A freshly constructed breaker: CLOSED with zeroed counters. -/
def CircuitBreaker.mk0 (cfg : CircuitBreakerConfig) : CircuitBreaker :=
  { state := .CLOSED, failureCount := 0, successCount := 0,
    lastFailureTime := none, config := cfg }

/-- `CircuitBreaker.shouldAttemptReset`: `Date.now() - lastFailureTime
>= resetTimeout`, computed over `Int` as in JavaScript arithmetic;
a `null` `lastFailureTime` counts as resettable. -/
def CircuitBreaker.shouldAttemptReset (cb : CircuitBreaker) (now : Nat) : Bool :=
  match cb.lastFailureTime with
  | none => true
  | some t => (now : Int) - (t : Int) ≥ (cb.config.resetTimeout : Int)

/-- `CircuitBreaker.transitionTo`: sets the state and clears the
counters the source clears for each target state. -/
def CircuitBreaker.transitionTo (cb : CircuitBreaker) (ns : CircuitState) :
    CircuitBreaker :=
  let cb' := { cb with state := ns }
  match ns with
  | .CLOSED => { cb' with failureCount := 0, successCount := 0 }
  | .HALF_OPEN => { cb' with successCount := 0 }
  | .OPEN => cb'

/-- `CircuitBreaker.isOpen` getter (it mutates: an OPEN breaker past its
reset timeout lazily transitions to HALF_OPEN and reports not-open). -/
def CircuitBreaker.isOpenAt (cb : CircuitBreaker) (now : Nat) :
    Bool × CircuitBreaker :=
  if cb.state = .OPEN then
    if cb.shouldAttemptReset now then (false, cb.transitionTo .HALF_OPEN)
    else (true, cb)
  else (false, cb)

/-- `CircuitBreaker.onSuccess`. -/
def CircuitBreaker.onSuccess (cb : CircuitBreaker) : CircuitBreaker :=
  let cb' := { cb with failureCount := 0 }
  if cb'.state = .HALF_OPEN then
    let cb'' := { cb' with successCount := cb'.successCount + 1 }
    if cb''.successCount ≥ cb''.config.successThreshold then
      cb''.transitionTo .CLOSED
    else cb''
  else cb'

/-- `CircuitBreaker.onFailure`. -/
def CircuitBreaker.onFailure (cb : CircuitBreaker) (now : Nat) : CircuitBreaker :=
  let cb' := { cb with failureCount := cb.failureCount + 1,
                       lastFailureTime := some now, successCount := 0 }
  if cb'.state = .HALF_OPEN then cb'.transitionTo .OPEN
  else if cb'.failureCount ≥ cb'.config.failureThreshold then cb'.transitionTo .OPEN
  else cb'

/-- Result of one `execute` call: the operation's value, the operation's
(or timeout's) re-raised error, or the fail-fast
`CircuitBreakerOpenException`. -/
inductive ExecuteResult (α : Type) where
  | ok (a : α)
  | err (e : String)
  | breakerOpen
deriving DecidableEq, Repr

/-- `CircuitBreaker.execute`.  The wrapped operation (with its
`withTimeout` guard, a timeout being one more way to land in the error
branch) is modelled by its outcome `outcome`; the returned `Bool`
records whether the operation was invoked at all. -/
def CircuitBreaker.execute (cb : CircuitBreaker) (now : Nat)
    (outcome : Except String α) : ExecuteResult α × CircuitBreaker × Bool :=
  match cb.isOpenAt now with
  | (true, cb') => (.breakerOpen, cb', false)
  | (false, cb') =>
    match outcome with
    | .ok a => (.ok a, cb'.onSuccess, true)
    | .error e => (.err e, cb'.onFailure now, true)

/-! ### Retry with backoff (`common/utils/retry.util.ts`) -/

/-- `RetryConfig`; millisecond amounts and the exponential base are
JavaScript numbers, modelled as rationals. -/
structure RetryConfig where
  maxAttempts : Nat
  baseDelayMs : ℚ
  maxDelayMs : ℚ
  exponentialBase : ℚ
  jitter : Bool
deriving DecidableEq, Repr

/-- `calculateDelay`.  The jitter factor `0.5 + Math.random()` is passed
in as the input `jitterFactor`; `Math.round` (half toward +∞) is
Mathlib's `round` on ℚ. -/
def calculateDelay (attempt : Nat) (config : RetryConfig) (jitterFactor : ℚ) : ℤ :=
  let d0 := config.baseDelayMs * config.exponentialBase ^ attempt
  let d1 := min d0 config.maxDelayMs
  let d2 := if config.jitter then d1 * jitterFactor else d1
  round d2

/-- What one run of `retryWithBackoff` did: its outcome (`.error none`
models throwing the never-assigned `lastError` when `maxAttempts = 0`),
how many times the operation was invoked, and how many sleeps were
performed. -/
structure RetryResult (ε α : Type) where
  outcome : Except (Option ε) α
  invocations : Nat
  sleeps : Nat
deriving Repr

/-- The `for` loop of `retryWithBackoff`: `remaining` attempts are left,
the next has index `attempt`, and `lastError` holds the most recent
caught error.  A failure sleeps unless it was the final attempt. -/
def retryAux (op : Nat → Except ε α) (attempt remaining : Nat)
    (lastError : Option ε) : RetryResult ε α :=
  match remaining with
  | 0 => ⟨.error lastError, 0, 0⟩
  | r + 1 =>
    match op attempt with
    | .ok a => ⟨.ok a, 1, 0⟩
    | .error e =>
      if r = 0 then ⟨.error (some e), 1, 0⟩
      else
        let rest := retryAux op (attempt + 1) r (some e)
        ⟨rest.outcome, rest.invocations + 1, rest.sleeps + 1⟩

/-- `retryWithBackoff`, with the operation modelled by the outcome of
each 0-based attempt index. -/
def retryWithBackoff (op : Nat → Except ε α) (cfg : RetryConfig) : RetryResult ε α :=
  retryAux op 0 cfg.maxAttempts none

/-! ### SQS consumer (`sqs/sqs-consumer.service.ts` together with
`common/services/idempotency.service.ts`) -/

/-- `IdempotencyService.isProcessed`. -/
def isProcessed (status : IdempotencyStatus) : Bool :=
  status = .COMPLETED

/-- `IdempotencyService.isProcessing`. -/
def isProcessing (status : IdempotencyStatus) : Bool :=
  status = .PROCESSING

/-- Outcome of `JSON.parse(message.Body)` followed by the consumer's
`!eventDetail?.product` check: the body fails to parse, it parses but
the `detail.product` field is missing, or it is well formed with the
fields the consumer reads. -/
inductive MessageBody where
  | unparseable
  | missingProduct
  | wellFormed (productId eventId : String) (correlationId : Option String)
deriving DecidableEq, Repr

/-- The error that escapes `processMessageWithRetry`: the outer catch
wraps whatever was thrown into an `SqsException`. -/
inductive ConsumerError where
  | sqsException (inner : String)
deriving DecidableEq, Repr

/-- Consumer state touched by one message: the idempotency manager and
the three outcome counters of `ProcessingMetrics`. -/
structure ConsumerState where
  manager : IdempotencyManager
  processed : Nat
  skipped : Nat
  failed : Nat
deriving DecidableEq, Repr

/-- What one `processMessageWithRetry` call did: the updated state,
whether `sqsService.deleteMessage` (acknowledge) was called, whether the
downstream `processProduct` chain was invoked, and the error the call
re-raised, if any. -/
structure StepResult where
  state : ConsumerState
  deleted : Bool
  downstreamCalled : Bool
  raised : Option ConsumerError
deriving DecidableEq, Repr

/-- `SqsConsumerService.processMessageWithRetry` for a single message.
The downstream `processProduct` call (Pimcore upsert behind circuit
breaker and retry) is modelled by its outcome `downstream`; an
unparseable body throws in the outer try and is re-raised wrapped,
leaving the message un-acknowledged. -/
def processMessageWithRetry (cs : ConsumerState) (now : Nat) (msg : MessageBody)
    (downstream : Except String Unit) : StepResult :=
  match msg with
  | .unparseable =>
      { state := cs, deleted := false, downstreamCalled := false,
        raised := some (.sqsException "Unexpected token in JSON") }
  | .missingProduct =>
      { state := cs, deleted := true, downstreamCalled := false, raised := none }
  | .wellFormed productId eventId _ =>
      let key := generateKey productId eventId
      let (status, m') := cs.manager.checkAndLock now key
      let cs' := { cs with manager := m' }
      if isProcessed status then
        { state := { cs' with skipped := cs'.skipped + 1 }, deleted := true,
          downstreamCalled := false, raised := none }
      else if isProcessing status then
        { state := cs', deleted := false, downstreamCalled := false, raised := none }
      else
        match downstream with
        | .ok _ =>
            let m2 := cs'.manager.markCompleted now key (some "processedAt")
            { state := { cs' with manager := m2, processed := cs'.processed + 1 },
              deleted := true, downstreamCalled := true, raised := none }
        | .error e =>
            let m2 := cs'.manager.markFailed now key e
            { state := { cs' with manager := m2, failed := cs'.failed + 1 },
              deleted := false, downstreamCalled := true,
              raised := some (.sqsException e) }

/-! ### Store lemmas -/

/-- `Map.set` then `Map.get` of the same key yields the new entry. -/
theorem storeFind_storeInsert_self (s : InMemoryStore) (k : String) (e : StoreEntry) :
    storeFind (storeInsert s k e) k = some e := by
  simp [storeInsert, storeFind]

/-! ### Claims -/

/-- C1: `checkAndLock` on an absent key creates a PROCESSING record and
returns NOT_FOUND; on an existing unexpired record it returns that
record's status without mutating anything; hence two calls with no
completion in between (within the TTL) return NOT_FOUND then PROCESSING,
and after `markCompleted` a subsequent call (within the TTL) returns
COMPLETED. -/
theorem checkAndLock_contract (m : IdempotencyManager) (now : Nat) (k : String) :
    (storeFind m.store k = none →
      (m.checkAndLock now k).1 = .NOT_FOUND ∧
      storeFind (m.checkAndLock now k).2.store k =
        some ⟨⟨k, .PROCESSING, now, now, none, none⟩, now + m.ttlMs⟩) ∧
    (∀ e, storeFind m.store k = some e → now ≤ e.expiresAt →
      (m.checkAndLock now k).1 = e.record.status ∧
      (m.checkAndLock now k).2 = m) ∧
    (storeFind m.store k = none → ∀ t1, t1 ≤ now + m.ttlMs →
      ((m.checkAndLock now k).2.checkAndLock t1 k).1 = .PROCESSING) ∧
    (∀ (m' : IdempotencyManager) (t2 t3 : Nat) (r : Option String),
      t3 ≤ t2 + m'.ttlMs →
      ((m'.markCompleted t2 k r).checkAndLock t3 k).1 = .COMPLETED) := by
  refine ⟨?_, ?_, ?_, ?_⟩
  · intro h
    simp [IdempotencyManager.checkAndLock, memGet, h, memSet,
      storeFind_storeInsert_self]
  · intro e he hexp
    simp [IdempotencyManager.checkAndLock, memGet, he, Nat.not_lt.mpr hexp]
  · intro h t1 ht1
    simp [IdempotencyManager.checkAndLock, memGet, h, memSet,
      storeFind_storeInsert_self, Nat.not_lt.mpr ht1]
  · intro m' t2 t3 r ht
    simp [IdempotencyManager.markCompleted, IdempotencyManager.checkAndLock,
      memGet, memSet, storeFind_storeInsert_self, Nat.not_lt.mpr ht]

/-- C1 witness: the contract evaluated on the empty store with TTL 1000,
key "k", at concrete times. -/
theorem checkAndLock_contract_witness :
    ((⟨[], 1000⟩ : IdempotencyManager).checkAndLock 0 "k").1 =
        IdempotencyStatus.NOT_FOUND ∧
    ((((⟨[], 1000⟩ : IdempotencyManager).checkAndLock 0 "k").2).checkAndLock 5 "k").1 =
        IdempotencyStatus.PROCESSING ∧
    (((⟨[], 1000⟩ : IdempotencyManager).markCompleted 7 "k" none).checkAndLock 9 "k").1 =
        IdempotencyStatus.COMPLETED :=
  ⟨((checkAndLock_contract ⟨[], 1000⟩ 0 "k").1 rfl).1,
   (checkAndLock_contract ⟨[], 1000⟩ 0 "k").2.2.1 rfl 5 (by decide),
   (checkAndLock_contract ⟨[], 1000⟩ 0 "k").2.2.2 ⟨[], 1000⟩ 7 9 none (by decide)⟩

/-- C7: a record stored with TTL `t` at time `now0` is returned by `get`
at any time strictly before `now0 + t` and read as absent at any time
strictly after `now0 + t`, even though the entry may still sit in the
backing map. -/
theorem memGet_ttl (s : InMemoryStore) (now0 t : Nat) (k : String)
    (r : IdempotencyRecord) :
    (∀ now1, now1 < now0 + t → (memGet (memSet s now0 k r t) now1 k).1 = some r) ∧
    (∀ now1, now0 + t < now1 → (memGet (memSet s now0 k r t) now1 k).1 = none) := by
  constructor
  · intro now1 h
    simp [memGet, memSet, storeFind_storeInsert_self, Nat.not_lt.mpr (Nat.le_of_lt h)]
  · intro now1 h
    simp [memGet, memSet, storeFind_storeInsert_self, h]

/-- C7 witness: TTL behavior on a concrete store, key and times. -/
theorem memGet_ttl_witness :
    (memGet (memSet [] 10 "k" ⟨"k", .COMPLETED, 10, 10, none, none⟩ 5) 14 "k").1 =
        some ⟨"k", .COMPLETED, 10, 10, none, none⟩ ∧
    (memGet (memSet [] 10 "k" ⟨"k", .COMPLETED, 10, 10, none, none⟩ 5) 16 "k").1 =
        none :=
  ⟨(memGet_ttl [] 10 5 "k" ⟨"k", .COMPLETED, 10, 10, none, none⟩).1 14 (by decide),
   (memGet_ttl [] 10 5 "k" ⟨"k", .COMPLETED, 10, 10, none, none⟩).2 16 (by decide)⟩

/-- C3: while OPEN and strictly inside the reset window, `execute`
raises the breaker-open signal without invoking the operation and leaves
the whole breaker record — in particular `failureCount`, `successCount`
and `lastFailureTime` — unchanged. -/
theorem execute_failFast {α : Type} (cb : CircuitBreaker) (now t : Nat)
    (outcome : Except String α)
    (hst : cb.state = .OPEN) (hlt : cb.lastFailureTime = some t)
    (h : (now : Int) - (t : Int) < (cb.config.resetTimeout : Int)) :
    cb.execute now outcome = (.breakerOpen, cb, false) := by
  simp [CircuitBreaker.execute, CircuitBreaker.isOpenAt, hst,
    CircuitBreaker.shouldAttemptReset, hlt, not_le.mpr h]

/-- C3 witness: an OPEN breaker 30s after its last failure with a 60s
reset timeout fails fast on a would-be successful operation. -/
theorem execute_failFast_witness :
    CircuitBreaker.execute
        ⟨.OPEN, 5, 0, some 1000, ⟨5, 2, 30000, 60000⟩⟩ 31000 (.ok (0 : Nat)) =
      (.breakerOpen, ⟨.OPEN, 5, 0, some 1000, ⟨5, 2, 30000, 60000⟩⟩, false) :=
  execute_failFast ⟨.OPEN, 5, 0, some 1000, ⟨5, 2, 30000, 60000⟩⟩ 31000 1000
    (.ok (0 : Nat)) rfl rfl (by decide)

/-- C4: the per-call transition relation of the breaker: a failure while
CLOSED opens it exactly when the failure count reaches the threshold; a
success while CLOSED stays CLOSED and zeroes the failure counter; an
OPEN breaker past its reset timeout becomes HALF_OPEN before the let-
through trial call's outcome is recorded; a success while HALF_OPEN
closes it exactly when the success count reaches the threshold; any
failure while HALF_OPEN reopens it. -/
theorem circuitBreaker_transitions {α : Type} (cb : CircuitBreaker) (now t : Nat)
    (a : α) (e : String) :
    (cb.state = .CLOSED →
      (cb.execute now (.error e : Except String α)).2.1.state =
        (if cb.config.failureThreshold ≤ cb.failureCount + 1 then .OPEN
         else .CLOSED)) ∧
    (cb.state = .CLOSED →
      (cb.execute now (.ok a)).2.1 = { cb with failureCount := 0 }) ∧
    (cb.state = .OPEN → cb.lastFailureTime = some t →
      (cb.config.resetTimeout : Int) ≤ (now : Int) - (t : Int) →
      cb.execute now (.ok a) = (.ok a, (cb.transitionTo .HALF_OPEN).onSuccess, true) ∧
      cb.execute now (.error e : Except String α) =
        (.err e, (cb.transitionTo .HALF_OPEN).onFailure now, true)) ∧
    (cb.state = .HALF_OPEN →
      (cb.execute now (.ok a)).2.1.state =
        (if cb.config.successThreshold ≤ cb.successCount + 1 then .CLOSED
         else .HALF_OPEN)) ∧
    (cb.state = .HALF_OPEN →
      (cb.execute now (.error e : Except String α)).2.1.state = .OPEN) := by
  refine ⟨?_, ?_, ?_, ?_, ?_⟩
  · intro hst
    simp [CircuitBreaker.execute, CircuitBreaker.isOpenAt, hst,
      CircuitBreaker.onFailure, CircuitBreaker.transitionTo]
    split <;> simp_all
  · intro hst
    simp [CircuitBreaker.execute, CircuitBreaker.isOpenAt, hst,
      CircuitBreaker.onSuccess]
  · intro hst hlt h
    constructor <;>
      simp [CircuitBreaker.execute, CircuitBreaker.isOpenAt, hst,
        CircuitBreaker.shouldAttemptReset, hlt, h]
  · intro hst
    simp [CircuitBreaker.execute, CircuitBreaker.isOpenAt, hst,
      CircuitBreaker.onSuccess, CircuitBreaker.transitionTo]
    split <;> simp_all
  · intro hst
    simp [CircuitBreaker.execute, CircuitBreaker.isOpenAt, hst,
      CircuitBreaker.onFailure, CircuitBreaker.transitionTo]

/-- C4 witness: each transition evaluated on a concrete breaker with
`failureThreshold = 3`, `successThreshold = 2`, `resetTimeout = 60000`. -/
theorem circuitBreaker_transitions_witness :
    (CircuitBreaker.execute ⟨.CLOSED, 2, 0, some 50, ⟨3, 2, 30000, 60000⟩⟩ 100
        (.error "boom" : Except String Nat)).2.1.state = .OPEN ∧
    (CircuitBreaker.execute ⟨.CLOSED, 2, 0, some 50, ⟨3, 2, 30000, 60000⟩⟩ 100
        (.ok 7)).2.1 = ⟨.CLOSED, 0, 0, some 50, ⟨3, 2, 30000, 60000⟩⟩ ∧
    CircuitBreaker.execute ⟨.OPEN, 3, 0, some 50, ⟨3, 2, 30000, 60000⟩⟩ 70000
        (.ok 7) =
      (.ok 7, (CircuitBreaker.transitionTo
        ⟨.OPEN, 3, 0, some 50, ⟨3, 2, 30000, 60000⟩⟩ .HALF_OPEN).onSuccess, true) ∧
    (CircuitBreaker.execute ⟨.HALF_OPEN, 0, 1, some 50, ⟨3, 2, 30000, 60000⟩⟩ 100
        (.ok 7)).2.1.state = .CLOSED ∧
    (CircuitBreaker.execute ⟨.HALF_OPEN, 0, 1, some 50, ⟨3, 2, 30000, 60000⟩⟩ 100
        (.error "boom" : Except String Nat)).2.1.state = .OPEN := by
  refine ⟨?_, ?_, ?_, ?_, ?_⟩
  · have h := (circuitBreaker_transitions
      ⟨.CLOSED, 2, 0, some 50, ⟨3, 2, 30000, 60000⟩⟩ 100 50 (7 : Nat) "boom").1 rfl
    simpa using h
  · exact (circuitBreaker_transitions
      ⟨.CLOSED, 2, 0, some 50, ⟨3, 2, 30000, 60000⟩⟩ 100 50 (7 : Nat) "boom").2.1 rfl
  · exact ((circuitBreaker_transitions
      ⟨.OPEN, 3, 0, some 50, ⟨3, 2, 30000, 60000⟩⟩ 70000 50 (7 : Nat) "boom").2.2.1
        rfl rfl (by decide)).1
  · have h := (circuitBreaker_transitions
      ⟨.HALF_OPEN, 0, 1, some 50, ⟨3, 2, 30000, 60000⟩⟩ 100 50 (7 : Nat) "boom").2.2.2.1
        rfl
    simpa using h
  · exact (circuitBreaker_transitions
      ⟨.HALF_OPEN, 0, 1, some 50, ⟨3, 2, 30000, 60000⟩⟩ 100 50 (7 : Nat) "boom").2.2.2.2
        rfl

/-- The retry loop, entered with `j` failing attempts ahead of a
success and enough budget, returns the success after `j + 1` invocations
and `j` sleeps. -/
theorem retryAux_ok {ε α : Type} (op : Nat → Except ε α) :
    ∀ (j attempt remaining : Nat) (lastE : Option ε) (a : α),
      j + 1 ≤ remaining →
      (∀ i, i < j → ∃ e, op (attempt + i) = .error e) →
      op (attempt + j) = .ok a →
      retryAux op attempt remaining lastE = ⟨.ok a, j + 1, j⟩ := by
  intro j
  induction j with
  | zero =>
    intro attempt remaining lastE a hrem _ hok
    obtain ⟨r, rfl⟩ : ∃ r, remaining = r + 1 := ⟨remaining - 1, by omega⟩
    rw [Nat.add_zero] at hok
    simp [retryAux, hok]
  | succ n ih =>
    intro attempt remaining lastE a hrem hfail hok
    obtain ⟨r, rfl⟩ : ∃ r, remaining = r + 1 := ⟨remaining - 1, by omega⟩
    obtain ⟨e, he⟩ := hfail 0 (Nat.succ_pos n)
    rw [Nat.add_zero] at he
    have hr : r ≠ 0 := by omega
    have hrest : retryAux op (attempt + 1) r (some e) = ⟨.ok a, n + 1, n⟩ := by
      refine ih (attempt + 1) r (some e) a (by omega) ?_ ?_
      · intro i hi
        obtain ⟨e', he'⟩ := hfail (i + 1) (by omega)
        exact ⟨e', by rw [← he']; ring_nf⟩
      · rw [← hok]; ring_nf
    simp [retryAux, he, hr, hrest]

/-- The retry loop on a budget of `remaining ≥ 1` all-failing attempts
re-raises the error of the final attempt after `remaining` invocations
and `remaining - 1` sleeps. -/
theorem retryAux_allFail {ε α : Type} (op : Nat → Except ε α) :
    ∀ (remaining attempt : Nat) (lastE : Option ε) (e : ε),
      1 ≤ remaining →
      (∀ i, i < remaining → ∃ e', op (attempt + i) = .error e') →
      op (attempt + (remaining - 1)) = .error e →
      retryAux op attempt remaining lastE =
        ⟨.error (some e), remaining, remaining - 1⟩ := by
  intro remaining
  induction remaining with
  | zero => intro _ _ _ h; omega
  | succ r ih =>
    intro attempt lastE e _ hfail hlast
    by_cases hr : r = 0
    · subst hr
      rw [Nat.add_zero] at hlast
      simp [retryAux, hlast]
    · obtain ⟨e0, he0⟩ := hfail 0 (Nat.succ_pos r)
      rw [Nat.add_zero] at he0
      have hrest : retryAux op (attempt + 1) r (some e0) =
          ⟨.error (some e), r, r - 1⟩ := by
        refine ih (attempt + 1) (some e0) e (by omega) ?_ ?_
        · intro i hi
          obtain ⟨e', he'⟩ := hfail (i + 1) (by omega)
          exact ⟨e', by rw [← he']; ring_nf⟩
        · rw [← hlast]
          congr 1
          omega
      have hr1 : r - 1 + 1 = r := by omega
      simp [retryAux, he0, hr, hrest, hr1]

/-- C5: with `maxAttempts ≥ 1`, an operation failing on attempts
`1..k-1` and succeeding on attempt `k ≤ maxAttempts` makes
`retryWithBackoff` return the success value after exactly `k`
invocations and `k - 1` sleeps; an operation failing on every attempt is
invoked exactly `maxAttempts` times, sleeps only `maxAttempts - 1` times
(never after the final attempt) and has its last error re-raised
unchanged. -/
theorem retryWithBackoff_contract {ε α : Type} (op : Nat → Except ε α)
    (cfg : RetryConfig) (hmax : 1 ≤ cfg.maxAttempts) :
    (∀ k a, 1 ≤ k → k ≤ cfg.maxAttempts →
      (∀ i, i < k - 1 → ∃ e, op i = .error e) →
      op (k - 1) = .ok a →
      retryWithBackoff op cfg = ⟨.ok a, k, k - 1⟩) ∧
    (∀ e, (∀ i, i < cfg.maxAttempts → ∃ e', op i = .error e') →
      op (cfg.maxAttempts - 1) = .error e →
      retryWithBackoff op cfg =
        ⟨.error (some e), cfg.maxAttempts, cfg.maxAttempts - 1⟩) := by
  constructor
  · intro k a hk hkmax hfail hok
    have h := retryAux_ok op (k - 1) 0 cfg.maxAttempts none a (by omega)
      (by intro i hi; simpa using hfail i hi) (by simpa using hok)
    rw [retryWithBackoff, h]
    have : k - 1 + 1 = k := by omega
    rw [this]
  · intro e hfail hlast
    exact retryAux_allFail op cfg.maxAttempts 0 none e hmax
      (by intro i hi; simpa using hfail i hi) (by simpa using hlast)

/-- C5 witness: with `maxAttempts = 3`, an operation failing twice then
succeeding returns the success after exactly 3 invocations and 2 sleeps;
an always-failing operation is invoked exactly 3 times, sleeps twice and
re-raises its error. -/
theorem retryWithBackoff_contract_witness :
    retryWithBackoff (fun i => if i < 2 then .error "tmp" else .ok 42)
        ⟨3, 10, 30000, 2, false⟩ = ⟨.ok 42, 3, 2⟩ ∧
    retryWithBackoff (fun _ => (.error "perm" : Except String Nat))
        ⟨3, 10, 30000, 2, false⟩ = ⟨.error (some "perm"), 3, 2⟩ :=
  ⟨(retryWithBackoff_contract (fun i => if i < 2 then .error "tmp" else .ok 42)
      ⟨3, 10, 30000, 2, false⟩ (by decide)).1 3 42 (by decide) (by decide)
      (by intro i hi; exact ⟨"tmp", by simp; omega⟩) (by simp),
   (retryWithBackoff_contract (fun _ => (.error "perm" : Except String Nat))
      ⟨3, 10, 30000, 2, false⟩ (by decide)).2 "perm"
      (by intro i _; exact ⟨"perm", rfl⟩) rfl⟩

/-- C6 counterexample: with jitter disabled, `baseDelay = 1`,
`exponentialBase = 3/2`, attempt 1, `maxDelay = 30000`, the code returns
the rounded value 2, which differs from the exact
`min(baseDelay * exponentialBase^1, maxDelay) = 3/2`. -/
theorem calculateDelay_exact_cex :
    calculateDelay 1 ⟨3, 1, 30000, 3/2, false⟩ 1 = 2 ∧
    ((calculateDelay 1 ⟨3, 1, 30000, 3/2, false⟩ 1 : ℚ) ≠
      min ((1 : ℚ) * (3/2 : ℚ) ^ 1) 30000) := by
  have h : calculateDelay 1 ⟨3, 1, 30000, 3/2, false⟩ 1 = 2 := by
    norm_num [calculateDelay, round_eq]
  refine ⟨h, ?_⟩
  rw [h]
  norm_num

/-- C6 (amended): the calculator always rounds: with jitter disabled it
returns `round (min (baseDelay * exponentialBase^attempt) maxDelay)` —
equal to the exact minimum whenever that value is an integer — and with
jitter enabled it returns the same minimum multiplied by the
input-modelled random factor and then rounded. -/
theorem calculateDelay_spec (attempt : Nat) (cfg : RetryConfig) (f : ℚ) :
    (cfg.jitter = false →
      calculateDelay attempt cfg f =
        round (min (cfg.baseDelayMs * cfg.exponentialBase ^ attempt)
          cfg.maxDelayMs)) ∧
    (cfg.jitter = true →
      calculateDelay attempt cfg f =
        round (min (cfg.baseDelayMs * cfg.exponentialBase ^ attempt)
          cfg.maxDelayMs * f)) ∧
    (cfg.jitter = false → ∀ z : ℤ,
      min (cfg.baseDelayMs * cfg.exponentialBase ^ attempt) cfg.maxDelayMs = z →
      calculateDelay attempt cfg f = z) := by
  refine ⟨?_, ?_, ?_⟩
  · intro hj
    simp [calculateDelay, hj]
  · intro hj
    simp [calculateDelay, hj]
  · intro hj z hz
    simp [calculateDelay, hj, hz]

/-- C6 witness: the default-shaped integer policy
`(base 1000, expBase 2, max 30000)` without jitter yields exactly 2000 at
attempt 1, and with jitter factor 3/4 yields 1500. -/
theorem calculateDelay_spec_witness :
    calculateDelay 1 ⟨3, 1000, 30000, 2, false⟩ 1 = 2000 ∧
    calculateDelay 1 ⟨3, 1000, 30000, 2, true⟩ (3/4) = 1500 := by
  constructor
  · exact (calculateDelay_spec 1 ⟨3, 1000, 30000, 2, false⟩ 1).2.2 rfl 2000
      (by norm_num)
  · rw [(calculateDelay_spec 1 ⟨3, 1000, 30000, 2, true⟩ (3/4)).2.1 rfl]
    norm_num [round_eq]

/-- C2: a well-formed message whose business key holds an unexpired
COMPLETED record is acknowledged immediately with the skipped counter
bumped by exactly one (all other state untouched), no downstream call
and no error. -/
theorem consumer_skips_completed (cs : ConsumerState) (now : Nat)
    (pid eid : String) (cid : Option String) (down : Except String Unit)
    (entry : StoreEntry)
    (hfind : storeFind cs.manager.store (generateKey pid eid) = some entry)
    (hstatus : entry.record.status = .COMPLETED)
    (hunexp : now ≤ entry.expiresAt) :
    processMessageWithRetry cs now (.wellFormed pid eid cid) down =
      { state := { cs with skipped := cs.skipped + 1 }, deleted := true,
        downstreamCalled := false, raised := none } := by
  simp [processMessageWithRetry, IdempotencyManager.checkAndLock, memGet,
    hfind, Nat.not_lt.mpr hunexp, hstatus, isProcessed]

/-- C2 witness: a concrete redelivered message over a store holding a
COMPLETED record for its key. -/
theorem consumer_skips_completed_witness :
    processMessageWithRetry
        ⟨⟨[("product:p:event:e",
            ⟨⟨"product:p:event:e", .COMPLETED, 0, 0, none, none⟩, 1000⟩)], 1000⟩,
          4, 2, 3⟩
        10 (.wellFormed "p" "e" none) (.ok ()) =
      { state := ⟨⟨[("product:p:event:e",
            ⟨⟨"product:p:event:e", .COMPLETED, 0, 0, none, none⟩, 1000⟩)], 1000⟩,
          4, 3, 3⟩,
        deleted := true, downstreamCalled := false, raised := none } :=
  consumer_skips_completed
    ⟨⟨[("product:p:event:e",
        ⟨⟨"product:p:event:e", .COMPLETED, 0, 0, none, none⟩, 1000⟩)], 1000⟩,
      4, 2, 3⟩
    10 "p" "e" none (.ok ())
    ⟨⟨"product:p:event:e", .COMPLETED, 0, 0, none, none⟩, 1000⟩
    (by simp [generateKey, storeFind]) rfl (by decide)

/-- C8 counterexample: a message whose body fails to parse is NOT
acknowledged (it is left for redelivery, contradicting
"acknowledges/deletes the message"), and a parsed message missing its
product field leaves the skipped counter untouched (contradicting
"counts it as skipped"). -/
theorem consumer_malformed_cex :
    (processMessageWithRetry ⟨⟨[], 1000⟩, 0, 0, 0⟩ 0 .unparseable
        (.ok ())).deleted = false ∧
    (processMessageWithRetry ⟨⟨[], 1000⟩, 0, 0, 0⟩ 0 .missingProduct
        (.ok ())).state.skipped = 0 :=
  ⟨rfl, rfl⟩

/-- C8 (amended): a parsed message missing its required product field is
acknowledged/deleted and dropped — never sent downstream and never
re-raised — but no metric is incremented; a message whose payload fails
to parse is not acknowledged: the wrapped parse error is re-raised and
the message is left for the queue to redeliver, with no downstream call
and no state change. -/
theorem consumer_malformed_spec (cs : ConsumerState) (now : Nat)
    (down : Except String Unit) :
    processMessageWithRetry cs now .missingProduct down =
      { state := cs, deleted := true, downstreamCalled := false,
        raised := none } ∧
    ∃ s, processMessageWithRetry cs now .unparseable down =
      { state := cs, deleted := false, downstreamCalled := false,
        raised := some (.sqsException s) } :=
  ⟨rfl, "Unexpected token in JSON", rfl⟩

/-- C9: a well-formed message for a fresh key whose downstream
processing fails ends with the key marked FAILED, the failed counter
bumped by exactly one, the message left un-acknowledged and the error
re-raised (wrapped by the consumer boundary); on downstream success the
key is marked COMPLETED, the message acknowledged and the processed
counter bumped by exactly one. -/
theorem consumer_outcome_spec (cs : ConsumerState) (now : Nat)
    (pid eid : String) (cid : Option String)
    (hfind : storeFind cs.manager.store (generateKey pid eid) = none) :
    (∀ e : String,
      processMessageWithRetry cs now (.wellFormed pid eid cid) (.error e) =
        { state := { cs with
            manager := ((cs.manager.checkAndLock now (generateKey pid eid)).2).markFailed
              now (generateKey pid eid) e,
            failed := cs.failed + 1 },
          deleted := false, downstreamCalled := true,
          raised := some (.sqsException e) } ∧
      (storeFind (processMessageWithRetry cs now (.wellFormed pid eid cid)
          (.error e)).state.manager.store (generateKey pid eid)).map
        (fun en => en.record.status) = some .FAILED) ∧
    (processMessageWithRetry cs now (.wellFormed pid eid cid) (.ok ()) =
        { state := { cs with
            manager := ((cs.manager.checkAndLock now (generateKey pid eid)).2).markCompleted
              now (generateKey pid eid) (some "processedAt"),
            processed := cs.processed + 1 },
          deleted := true, downstreamCalled := true, raised := none } ∧
      (storeFind (processMessageWithRetry cs now (.wellFormed pid eid cid)
          (.ok ())).state.manager.store (generateKey pid eid)).map
        (fun en => en.record.status) = some .COMPLETED) := by
  constructor
  · intro e
    constructor
    · simp [processMessageWithRetry, IdempotencyManager.checkAndLock, memGet,
        hfind, isProcessed, isProcessing]
    · simp [processMessageWithRetry, IdempotencyManager.checkAndLock, memGet,
        hfind, isProcessed, isProcessing, IdempotencyManager.markFailed,
        memSet, storeFind_storeInsert_self]
  · constructor
    · simp [processMessageWithRetry, IdempotencyManager.checkAndLock, memGet,
        hfind, isProcessed, isProcessing]
    · simp [processMessageWithRetry, IdempotencyManager.checkAndLock, memGet,
        hfind, isProcessed, isProcessing, IdempotencyManager.markCompleted,
        memSet, storeFind_storeInsert_self]

/-- C9 witness: over the empty store, a failing downstream call bumps
`failed` to 1 without acknowledging, and a successful one bumps
`processed` to 1 and acknowledges. -/
theorem consumer_outcome_spec_witness :
    (processMessageWithRetry ⟨⟨[], 1000⟩, 0, 0, 0⟩ 0 (.wellFormed "p" "e" none)
        (.error "boom")).state.failed = 1 ∧
    (processMessageWithRetry ⟨⟨[], 1000⟩, 0, 0, 0⟩ 0 (.wellFormed "p" "e" none)
        (.error "boom")).deleted = false ∧
    (processMessageWithRetry ⟨⟨[], 1000⟩, 0, 0, 0⟩ 0 (.wellFormed "p" "e" none)
        (.ok ())).state.processed = 1 ∧
    (processMessageWithRetry ⟨⟨[], 1000⟩, 0, 0, 0⟩ 0 (.wellFormed "p" "e" none)
        (.ok ())).deleted = true := by
  have h1 := ((consumer_outcome_spec ⟨⟨[], 1000⟩, 0, 0, 0⟩ 0 "p" "e" none rfl).1
    "boom").1
  have h2 := (consumer_outcome_spec ⟨⟨[], 1000⟩, 0, 0, 0⟩ 0 "p" "e" none rfl).2.1
  rw [h1, h2]
  exact ⟨rfl, rfl, rfl, rfl⟩

/-- C10: a well-formed message whose key holds an unexpired FAILED
record gets status FAILED back from `checkAndLock` with the manager left
untouched (no new PROCESSING lock is taken, so the record stays FAILED
until a completion/failure mark, release or TTL expiry), is classified
neither processed nor processing, and is therefore reprocessed: the
downstream chain is invoked. -/
theorem consumer_reprocesses_failed (cs : ConsumerState) (now : Nat)
    (pid eid : String) (cid : Option String) (down : Except String Unit)
    (entry : StoreEntry)
    (hfind : storeFind cs.manager.store (generateKey pid eid) = some entry)
    (hstatus : entry.record.status = .FAILED)
    (hunexp : now ≤ entry.expiresAt) :
    (cs.manager.checkAndLock now (generateKey pid eid)).1 = .FAILED ∧
    (cs.manager.checkAndLock now (generateKey pid eid)).2 = cs.manager ∧
    isProcessed .FAILED = false ∧
    isProcessing .FAILED = false ∧
    (processMessageWithRetry cs now (.wellFormed pid eid cid)
        down).downstreamCalled = true := by
  refine ⟨?_, ?_, rfl, rfl, ?_⟩
  · simp [IdempotencyManager.checkAndLock, memGet, hfind, Nat.not_lt.mpr hunexp,
      hstatus]
  · simp [IdempotencyManager.checkAndLock, memGet, hfind, Nat.not_lt.mpr hunexp]
  · cases down <;>
      simp [processMessageWithRetry, IdempotencyManager.checkAndLock, memGet,
        hfind, Nat.not_lt.mpr hunexp, hstatus, isProcessed, isProcessing]

/-- C10 witness: a concrete store holding an unexpired FAILED record for
the message's key. -/
theorem consumer_reprocesses_failed_witness :
    ((⟨[("product:p:event:e",
        ⟨⟨"product:p:event:e", .FAILED, 0, 0, none, some "x"⟩, 1000⟩)], 1000⟩ :
      IdempotencyManager).checkAndLock 10 (generateKey "p" "e")).1 =
        IdempotencyStatus.FAILED ∧
    (processMessageWithRetry
        ⟨⟨[("product:p:event:e",
            ⟨⟨"product:p:event:e", .FAILED, 0, 0, none, some "x"⟩, 1000⟩)], 1000⟩,
          0, 0, 0⟩
        10 (.wellFormed "p" "e" none) (.ok ())).downstreamCalled = true := by
  have h := consumer_reprocesses_failed
    ⟨⟨[("product:p:event:e",
        ⟨⟨"product:p:event:e", .FAILED, 0, 0, none, some "x"⟩, 1000⟩)], 1000⟩,
      0, 0, 0⟩
    10 "p" "e" none (.ok ())
    ⟨⟨"product:p:event:e", .FAILED, 0, 0, none, some "x"⟩, 1000⟩
    (by simp [generateKey, storeFind]) rfl (by decide)
  exact ⟨h.1, h.2.2.2.2⟩

end Pipeline
